import Mathlib

/-!
Verification development for the photo_sorter repository.

The Python source is shallowly embedded:
* floating-point latitude/longitude values are modelled as rationals (ℚ);
  Python `round(x, p)` is modelled exactly (round half to even on the
  rational value), and the `repr` of the rounded float is modelled as the
  exact decimal rendering with trailing zeros stripped (at least one
  fractional digit), which agrees with CPython on every concrete input used
  below;
* Python `dict` objects (the geocode cache, Nominatim address objects) are
  modelled as insertion-ordered association lists;
* `unidecode` is modelled as the repository's own ImportError fallback in
  geocode.py (strip every non-ASCII character);
* the Nominatim HTTP exchange is modelled by an explicit `NomResponse`
  value handed to the resolver: `failure` covers network errors, non-200
  statuses and malformed JSON (all of which `_fetch_nominatim` maps to
  `(None, None)`), while `success` carries the decoded JSON fields that
  the source inspects (`error` presence, the `address` object, and
  `display_name`);
* raised exceptions are modelled with `Except`.
-/

attribute [local semireducible] Rat.mul Rat.add Rat.sub Rat.inv Rat.ofScientific

/-- Python whitespace characters (the ASCII ones recognised by `str.split`,
`str.strip` and the regex class `\s`). -/
def pyIsSpace (c : Char) : Bool :=
  c = ' ' || c = '\t' || c = '\n' || c = '\r' || c = Char.ofNat 11 || c = Char.ofNat 12

/-- A regex `\w` word character, restricted to ASCII (every string the source
feeds to the regexes has been passed through the ASCII-stripping
transliteration first). -/
def isWordChar (c : Char) : Bool :=
  c.isAlpha || c.isDigit || c = '_'

/-- The ASCII lower/upper case letter pairs. -/
def casePairs : List (Char × Char) :=
  [('a', 'A'), ('b', 'B'), ('c', 'C'), ('d', 'D'), ('e', 'E'), ('f', 'F'),
   ('g', 'G'), ('h', 'H'), ('i', 'I'), ('j', 'J'), ('k', 'K'), ('l', 'L'),
   ('m', 'M'), ('n', 'N'), ('o', 'O'), ('p', 'P'), ('q', 'Q'), ('r', 'R'),
   ('s', 'S'), ('t', 'T'), ('u', 'U'), ('v', 'V'), ('w', 'W'), ('x', 'X'),
   ('y', 'Y'), ('z', 'Z')]

/-- ASCII uppercasing of one character (Python `str.upper` on ASCII). -/
def pyUpperChar (c : Char) : Char :=
  ((casePairs.find? (fun p => decide (p.1 = c))).map (fun p => p.2)).getD c

/-- ASCII lowercasing of one character (Python `str.lower` on ASCII). -/
def pyLowerChar (c : Char) : Char :=
  ((casePairs.find? (fun p => decide (p.2 = c))).map (fun p => p.1)).getD c

/-- Python `str.capitalize`: first character uppercased, the rest
lowercased. -/
def pyCapitalize (s : String) : String :=
  match s.data with
  | [] => ""
  | c :: rest => String.mk (pyUpperChar c :: rest.map pyLowerChar)

/-- Python `str.isalpha` (ASCII fragment): non-empty and all letters. -/
def pyStrIsAlpha (s : String) : Bool :=
  !s.data.isEmpty && s.data.all Char.isAlpha

/-- Python `str.isdigit` (ASCII fragment): non-empty and all digits. -/
def pyStrIsDigit (s : String) : Bool :=
  !s.data.isEmpty && s.data.all Char.isDigit

/-- Python `str.strip()`: drop leading and trailing whitespace. -/
def pyStrip (s : String) : String :=
  String.mk (((s.data.dropWhile pyIsSpace).reverse.dropWhile pyIsSpace).reverse)

/-- Split a character list at whitespace characters, keeping the (possibly
empty) groups between them. -/
def splitGroups (l : List Char) : List (List Char) :=
  l.foldr
    (fun c acc =>
      if pyIsSpace c then [] :: acc
      else
        match acc with
        | [] => [[c]]
        | t :: ts => (c :: t) :: ts)
    [[]]

/-- Split a character list into its maximal runs of non-whitespace
characters (Python `str.split()` with no argument). -/
def splitNonWs (l : List Char) : List (List Char) :=
  (splitGroups l).filter (fun t => !t.isEmpty)

/-- Python `s.split()` as a list of strings. -/
def pyTokens (s : String) : List String :=
  (splitNonWs s.data).map String.mk

/-- Join strings with a separator (Python `sep.join(parts)`). -/
def strJoinSep (sep : String) : List String → String
  | [] => ""
  | [s] => s
  | s :: rest => s ++ sep ++ strJoinSep sep rest

/-- Python `needle in haystack` substring test, on character lists. -/
def listHasSub (sub : List Char) : List Char → Bool
  | [] => decide (sub = [])
  | c :: rest => sub.isPrefixOf (c :: rest) || listHasSub sub rest

/-- Python `sub in s` substring test on strings. -/
def strContains (s sub : String) : Bool :=
  listHasSub sub.data s.data

/-- Python `s.startswith(pre)`. -/
def strStartsWith (s pre : String) : Bool :=
  pre.data.isPrefixOf s.data

/-- The repository's `_unidecode` ImportError fallback in geocode.py: keep
only characters with code point below 128. -/
def pyUnidecodeAscii (s : String) : String :=
  String.mk (s.data.filter (fun c => decide (c.toNat < 128)))

/-- The substitution `re.sub(r"[^\w\s]", " ", s)`: every character that is
neither a word character nor whitespace becomes a space. -/
def subWordSpace (s : String) : String :=
  String.mk (s.data.map (fun c => if isWordChar c || pyIsSpace c then c else ' '))

/-- Insertion-ordered string dictionary (Python `dict`, JSON object). -/
abbrev Cache := List (String × String)

/-- Dictionary lookup (`d.get(k)` / `d[k]`). -/
def dictGet (c : Cache) (k : String) : Option String :=
  (c.find? (fun e => decide (e.1 = k))).map (fun e => e.2)

/-- Dictionary update `d[k] = v`: replace in place if the key exists,
otherwise append (Python insertion-order semantics). -/
def dictSet (c : Cache) (k v : String) : Cache :=
  if c.any (fun e => decide (e.1 = k)) then
    c.map (fun e => if e.1 = k then (k, v) else e)
  else
    c ++ [(k, v)]

/-- Dictionary removal `d.pop(k, None)`. -/
def dictPop (c : Cache) (k : String) : Cache :=
  c.filter (fun e => decide (e.1 ≠ k))

/-- Ten to a natural power, as a rational (kernel-computable form). -/
def pow10 (p : ℕ) : ℚ :=
  ((10 ^ p : ℕ) : ℚ)

/-- Python `round` to an integer: round half to even. -/
def pyRoundInt (x : ℚ) : ℤ :=
  let n := x.floor
  let f := x - (n : ℚ)
  if f < 1/2 then n
  else if 1/2 < f then n + 1
  else if n % 2 = 0 then n else n + 1

/-- Python `round(x, p)` for non-negative `p`, on the exact rational value. -/
def roundQ (x : ℚ) (p : ℕ) : ℚ :=
  (pyRoundInt (x * pow10 p) : ℚ) / pow10 p

/-- Strip trailing zero characters. -/
def stripTrailingZeros (s : String) : String :=
  String.mk ((s.data.reverse.dropWhile (fun c => decide (c = '0'))).reverse)

/-- Left-pad a string with zeros up to length `n`. -/
def padLeftZeros (s : String) (n : ℕ) : String :=
  if s.length < n then String.mk (List.replicate (n - s.length) '0') ++ s else s

/-- CPython `repr` of the float obtained by rounding `q` to `p` decimal
places: exact decimal digits, trailing zeros stripped, at least one
fractional digit. Assumes `q * 10^p` is an integer (true after `roundQ`). -/
def renderRounded (q : ℚ) (p : ℕ) : String :=
  let aq := if q < 0 then -q else q
  let n : ℕ := (aq * pow10 p).floor.toNat
  let ip := n / 10 ^ p
  let fp := n % 10 ^ p
  let fracDigits := stripTrailingZeros (padLeftZeros (toString fp) p)
  let frac := if fracDigits = "" then "0" else fracDigits
  (if q < 0 then "-" else "") ++ toString ip ++ "." ++ frac

/-- geocode.py `COORD_PRECISION`. -/
def COORD_PRECISION : ℕ := 3

/-- geocode.py `_cache_key`: the string `"{round(lat,p)},{round(lon,p)}"`
with default precision 3. -/
def cache_key (lat lon : ℚ) (precision : Option ℕ) : String :=
  let p := precision.getD COORD_PRECISION
  renderRounded (roundQ lat p) p ++ "," ++ renderRounded (roundQ lon p) p

/-- geocode.py `to_single_word_english`, with `_unidecode` modelled as the
repository's ASCII-stripping ImportError fallback. -/
def to_single_word_english (name : String) : String :=
  if name = "" || pyStrip name = "" then "Unknown"
  else
    let parts := pyTokens (subWordSpace (pyUnidecodeAscii name))
    if parts.isEmpty then "Unknown"
    else
      let meaningful := parts.filter
        (fun p => pyStrIsAlpha p || (pyStrIsDigit p && decide (3 < p.length)))
      if meaningful.isEmpty then "Unknown"
      else
        let result := String.join
          (meaningful.map (fun p => if pyStrIsAlpha p then pyCapitalize p else p))
        if result.data.countP Char.isDigit * 2 > result.length then "Unknown"
        else if result = "" then "Unknown" else result

/-- geocode.py `_name_to_safe_folder` (the lenient fallback normalizer). -/
def name_to_safe_folder (name : String) : String :=
  if name = "" || pyStrip name = "" then "Unknown"
  else
    let s := pyUnidecodeAscii name
    if s = "" || pyStrip s = "" then "Unknown"
    else
      let parts := pyTokens (subWordSpace s)
      if parts.isEmpty then "Unknown"
      else
        let take := (parts.filter
          (fun p => !(pyStrIsDigit p && decide (p.length ≤ 5)))).take 4
        if take.isEmpty then
          let cleaned := String.join parts
          if cleaned ≠ "" && decide (2 < cleaned.length) then pyCapitalize cleaned
          else "Unknown"
        else
          let result := String.join (take.map (fun p =>
            match p.data with
            | [] => ""
            | c :: rest =>
              if rest.isEmpty then String.mk [pyUpperChar c]
              else String.mk (pyUpperChar c :: rest.map pyLowerChar)))
          if result ≠ "" && decide (1 < result.length) then result else "Unknown"

/-- geocode.py `_has_chinese_characters`: any CJK Unified Ideograph
(U+4E00–U+9FFF). -/
def has_chinese_characters (text : String) : Bool :=
  text.data.any (fun c => decide (0x4e00 ≤ c.toNat) && decide (c.toNat ≤ 0x9fff))

/-- geocode.py `cluster_precision_from_radius_km`. -/
def cluster_precision_from_radius_km (radius_km : ℚ) : ℕ :=
  let r := if radius_km ≤ 0 then (10 : ℚ) else radius_km
  if 50 ≤ r then 0
  else if 10 ≤ r then 1
  else if 2 ≤ r then 2
  else 3

/-- geocode.py `cluster_key`: both coordinates rounded to the cluster
precision. -/
def cluster_key (lat lon : ℚ) (radius_km : ℚ) : ℚ × ℚ :=
  let p := cluster_precision_from_radius_km radius_km
  (roundQ lat p, roundQ lon p)

/-- geocode.py `sanitize_folder_name`: replace the characters
`\ / : * ? " < > |` with spaces, collapse whitespace runs, trim, and map
the empty result to "Unknown". -/
def sanitize_folder_name (name : String) : String :=
  let replaced := String.mk (name.data.map
    (fun c => if ['\\', '/', ':', '*', '?', '"', '<', '>', '|'].contains c then ' ' else c))
  let out := strJoinSep " " (pyTokens replaced)
  if out = "" then "Unknown" else out

/-- geocode.py `rounded_coords_folder_name` (also the fallback text computed
at the top of `get_place_name`). -/
def rounded_coords_folder_name (lat lon : ℚ) (single_word_english : Bool) : String :=
  if single_word_english then
    String.mk
      (("Lat" ++ renderRounded (roundQ lat 2) 2 ++ "Lon" ++
        renderRounded (roundQ lon 2) 2).data.map
        (fun c => if c = '.' || c = '-' then '_' else c))
  else
    renderRounded (roundQ lat COORD_PRECISION) COORD_PRECISION ++ ", " ++
      renderRounded (roundQ lon COORD_PRECISION) COORD_PRECISION

/-- A decoded Nominatim `address` JSON object: string keys to string values
(the source applies `str(...)` to every value it uses). -/
abbrev NomAddress := List (String × String)

/-- The behaviour of one Nominatim HTTP exchange, as observed by
`_fetch_nominatim` after its own exception handling: `failure` covers
network errors, HTTP errors, non-200 statuses, non-dict bodies and
malformed JSON (all mapped to `(None, None)` by the source); `success`
carries whether the body has an "error" key, the `address` object
(`data.get("address", {})`, so an absent address is the empty object) and
`display_name` (`data.get("display_name", "")`). -/
inductive NomResponse
  | failure
  | success (hasError : Bool) (address : NomAddress) (display_name : String)

/-- What `_fetch_nominatim` returns. The source is annotated
`tuple[Optional[str], Optional[dict]]`, but one branch (geocode.py line
290, the neighbourhood/city/county/municipality/state fallback) executes
`return name, address, address`, producing a 3-tuple. -/
inductive FetchResult
  | tuple2 (name : Option String) (address : Option NomAddress)
  | tuple3 (name : String) (address address2 : NomAddress)

/-- Lookup of a key that is "present and truthy" (`key in address and
address[key]`): returns the value when it exists and is non-empty. -/
def addrTruthyGet (a : NomAddress) (k : String) : Option String :=
  match dictGet a k with
  | some v => if v = "" then none else some v
  | none => none

/-- First present-and-truthy value among a list of keys (the landmark scan
`for key in ["tourism", "landmark", "building", "attraction", "amenity"]`,
which uses the value unstripped). -/
def scanTruthyKeys (a : NomAddress) : List String → Option String
  | [] => none
  | k :: ks =>
    match addrTruthyGet a k with
    | some v => some v
    | none => scanTruthyKeys a ks

/-- A "usable" component value: present, truthy, non-empty after stripping,
and not a short (≤ 5 digits) numeric postal code; yields the stripped
value. -/
def usableComponent (a : NomAddress) (k : String) : Option String :=
  match addrTruthyGet a k with
  | some v =>
    let s := pyStrip v
    if s = "" then none
    else if pyStrIsDigit s && decide (s.length ≤ 5) then none
    else some s
  | none => none

/-- First usable value among the final fallback keys
`["neighbourhood", "city", "county", "municipality", "state"]`. -/
def scanUsableKeys (a : NomAddress) : List String → Option String
  | [] => none
  | k :: ks =>
    match usableComponent a k with
    | some v => some v
    | none => scanUsableKeys a ks

/-- Python `display_name.split(",")` (split on every comma, keeping empty
pieces). -/
def splitCommas (s : String) : List String :=
  (s.data.splitOn ',').map String.mk

/-- The `display_name` last resort of `_fetch_nominatim`: return the full
display name if some comma-separated segment is non-empty after stripping
and not a short numeric code. -/
def displayNamePhase (disp : String) (a : NomAddress) : FetchResult :=
  if disp = "" then .tuple2 none (some a)
  else if (splitCommas disp).any (fun part =>
      let p := pyStrip part
      p ≠ "" && !(pyStrIsDigit p && decide (p.length ≤ 5))) then
    .tuple2 (some disp) (some a)
  else .tuple2 none (some a)

/-- The address-component selection of `_fetch_nominatim` (geocode.py lines
222-305), operating on a decoded 200-response body. Faithful to the source,
including the 3-tuple `return name, address, address` on the
neighbourhood/city/county/municipality/state fallback branch. -/
def fetchFromBody (a : NomAddress) (disp : String) : FetchResult :=
  match scanTruthyKeys a ["tourism", "landmark", "building", "attraction", "amenity"] with
  | some name =>
    match scanTruthyKeys a ["city"] |>.orElse (fun _ => scanTruthyKeys a ["town"])
        |>.orElse (fun _ => scanTruthyKeys a ["village"])
        |>.orElse (fun _ => scanTruthyKeys a ["county"]) with
    | some city => if name ≠ city then .tuple2 (some (name ++ ", " ++ city)) (some a)
                   else .tuple2 (some name) (some a)
    | none => .tuple2 (some name) (some a)
  | none =>
    let suburb? := usableComponent a "suburb"
    let village? := usableComponent a "village"
    let town? := usableComponent a "town"
    let cityDistrict? := usableComponent a "city_district"
    match suburb? with
    | some s =>
      match village? with
      | some v =>
        if has_chinese_characters s && !has_chinese_characters v then
          .tuple2 (some v) (some a)
        else .tuple2 (some s) (some a)
      | none => .tuple2 (some s) (some a)
    | none =>
      match village? with
      | some v => .tuple2 (some v) (some a)
      | none =>
        match town? with
        | some t =>
          match cityDistrict? with
          | some cd =>
            if has_chinese_characters t && !has_chinese_characters cd then
              .tuple2 (some cd) (some a)
            else .tuple2 (some t) (some a)
          | none => .tuple2 (some t) (some a)
        | none =>
          match cityDistrict? with
          | some cd => .tuple2 (some cd) (some a)
          | none =>
            match scanUsableKeys a ["neighbourhood", "city", "county", "municipality", "state"] with
            | some name => .tuple3 name a a
            | none => displayNamePhase disp a

/-- geocode.py `_fetch_nominatim` as a function of the modelled HTTP
exchange. -/
def fetch_nominatim : NomResponse → FetchResult
  | .failure => .tuple2 none none
  | .success hasError address display_name =>
    if hasError then .tuple2 none none
    else fetchFromBody address display_name

/-- Exceptions that escape the modelled code. `valueError` is the
"too many values to unpack" raised when a 3-tuple meets the 2-variable
unpacking `name, address_dict = _fetch_nominatim(lat, lon)`. -/
inductive PyErr
  | valueError
deriving DecidableEq

/-- Decidable equality for modelled call outcomes. -/
instance : DecidableEq (Except PyErr String) := fun a b =>
  match a, b with
  | .ok x, .ok y =>
    if h : x = y then .isTrue (by rw [h]) else .isFalse (fun he => h (by cases he; rfl))
  | .error x, .error y =>
    if h : x = y then .isTrue (by rw [h]) else .isFalse (fun he => h (by cases he; rfl))
  | .ok _, .error _ => .isFalse (by simp)
  | .error _, .ok _ => .isFalse (by simp)

/-- Result of one `get_place_name` call: the returned text (or the raised
exception), the final contents of the cache file (`none` when no cache
path was supplied), and the successive contents written by `_save_cache`,
in order. -/
structure GPNResult where
  outcome : Except PyErr String
  fs : Option Cache
  writes : List Cache
deriving DecidableEq

/-- Outcome of the cache-validation block of `get_place_name` (geocode.py
lines 351-371): return a converted cached value, fall through untouched, or
evict the key and fall through. -/
inductive CacheStep
  | hitReturn (name : String)
  | miss
  | evict
deriving DecidableEq

/-- The conversion applied to a usable value: primary single-word
normalization in single-word mode, otherwise folder-name sanitization. -/
def gpnConvert (single_word_english : Bool) (raw : String) : String :=
  if single_word_english then to_single_word_english raw else sanitize_folder_name raw

/-- The cache-validation block of `get_place_name`: look up `key`; a falsy
value falls through; a coordinate-fallback lookalike (starts with "Lat" and
contains "Lon") or a 3-to-6-digit numeric value is evicted; otherwise the
converted value is returned unless the conversion is "Unknown" in
single-word mode, in which case the key is evicted. -/
def gpnCacheStep (single_word_english : Bool) (key : String) (c : Cache) : CacheStep :=
  match dictGet c key with
  | none => .miss
  | some raw =>
    if raw = "" then .miss
    else
      let rs := pyStrip raw
      if strStartsWith rs "Lat" && strContains rs "Lon" then .evict
      else if pyStrIsDigit rs && decide (3 ≤ rs.length) && decide (rs.length ≤ 6) then .evict
      else
        let converted := gpnConvert single_word_english raw
        if converted ≠ "Unknown" || !single_word_english then .hitReturn converted
        else .evict

/-- Persist `cacheValue` under `key` (when a cache path was supplied) and
return `ret` (the `cache[key] = ...; _save_cache(...)` / `return` pattern of
`get_place_name`). -/
def gpnWriteReturn (key ret cacheValue : String) (fs : Option Cache) (ws : List Cache) :
    GPNResult :=
  match fs with
  | some c => ⟨.ok ret, some (dictSet c key cacheValue), ws ++ [dictSet c key cacheValue]⟩
  | none => ⟨.ok ret, none, ws⟩

/-- The CJK retry scan of `get_place_name` (geocode.py lines 404-425): walk
`["village", "suburb"]`, and for the first usable value return its
single-word conversion, or failing that its lenient conversion; the raw
(stripped) component value is what gets cached. Returns
`(returned name, cached value)`. -/
def cjkRetryScan (a : NomAddress) : List String → Option (String × String)
  | [] => none
  | k :: ks =>
    match usableComponent a k with
    | some fv =>
      let fc := to_single_word_english fv
      if fc ≠ "Unknown" then some (fc, fv)
      else
        let sf := name_to_safe_folder fv
        if sf ≠ "Unknown" then some (sf, fv)
        else cjkRetryScan a ks
    | none => cjkRetryScan a ks

/-- The village/suburb last-resort scan of `get_place_name` when the fetch
returned no name (geocode.py lines 451-471). Returns
`(returned name, cached value)`. -/
def noneFallbackScan (single_word_english : Bool) (a : NomAddress) :
    List String → Option (String × String)
  | [] => none
  | k :: ks =>
    match usableComponent a k with
    | some fv =>
      if single_word_english then
        let c := to_single_word_english fv
        if c ≠ "Unknown" then some (c, fv)
        else noneFallbackScan single_word_english a ks
      else some (sanitize_folder_name fv, fv)
    | none => noneFallbackScan single_word_english a ks

/-- The branch of `get_place_name` taken when the fetch produced a truthy
name (geocode.py lines 388-448). -/
def gpnNamePhase (n : String) (addr? : Option NomAddress) (single_word_english : Bool)
    (key fallback : String) (fs : Option Cache) (ws : List Cache) : GPNResult :=
  if single_word_english then
    let converted := to_single_word_english n
    if converted = "Unknown" then
      let fallback_name := name_to_safe_folder n
      if fallback_name ≠ "Unknown" then gpnWriteReturn key fallback_name n fs ws
      else
        match addr? with
        | some a =>
          if has_chinese_characters n && !a.isEmpty then
            match cjkRetryScan a ["village", "suburb"] with
            | some (ret, cv) => gpnWriteReturn key ret cv fs ws
            | none => ⟨.ok fallback, fs, ws⟩
          else ⟨.ok fallback, fs, ws⟩
        | none => ⟨.ok fallback, fs, ws⟩
    else gpnWriteReturn key converted n fs ws
  else gpnWriteReturn key (sanitize_folder_name n) n fs ws

/-- The branch of `get_place_name` taken when the fetch produced no truthy
name (geocode.py lines 450-474): if the name is `None` and the address dict
is truthy, try village/suburb, else return the coordinate fallback. -/
def gpnNonePhase (nameIsNone : Bool) (addr? : Option NomAddress)
    (single_word_english : Bool) (key fallback : String) (fs : Option Cache)
    (ws : List Cache) : GPNResult :=
  match addr? with
  | some a =>
    if nameIsNone && !a.isEmpty then
      match noneFallbackScan single_word_english a ["village", "suburb"] with
      | some (ret, cv) => gpnWriteReturn key ret cv fs ws
      | none => ⟨.ok fallback, fs, ws⟩
    else ⟨.ok fallback, fs, ws⟩
  | none => ⟨.ok fallback, fs, ws⟩

/-- The network half of `get_place_name`: return the coordinate fallback
when the network is disabled, otherwise unpack the fetch result (raising
`ValueError` on the 3-tuple) and dispatch on the name. The rate-limit sleep
has no observable effect in this model and is omitted. -/
def gpnNetPhase (use_network single_word_english : Bool) (key fallback : String)
    (net : NomResponse) (fs : Option Cache) (ws : List Cache) : GPNResult :=
  if !use_network then ⟨.ok fallback, fs, ws⟩
  else
    match fetch_nominatim net with
    | .tuple3 _ _ _ => ⟨.error .valueError, fs, ws⟩
    | .tuple2 name? addr? =>
      match name? with
      | some n =>
        if n = "" then gpnNonePhase false addr? single_word_english key fallback fs ws
        else gpnNamePhase n addr? single_word_english key fallback fs ws
      | none => gpnNonePhase true addr? single_word_english key fallback fs ws

/-- geocode.py `get_place_name`. `cacheFile` is the current contents of the
cache file when a cache path was supplied (a missing file loads as the
empty dict), `net` is the behaviour of the Nominatim exchange that would be
performed on a cache miss. -/
def get_place_name (lat lon : ℚ) (cacheFile : Option Cache) (use_network : Bool)
    (single_word_english : Bool) (cache_precision : Option ℕ) (net : NomResponse) :
    GPNResult :=
  let key := cache_key lat lon cache_precision
  let fallback := rounded_coords_folder_name lat lon single_word_english
  match cacheFile with
  | some c =>
    match gpnCacheStep single_word_english key c with
    | .hitReturn nm => ⟨.ok nm, some c, []⟩
    | .miss => gpnNetPhase use_network single_word_english key fallback net (some c) []
    | .evict =>
      let c2 := dictPop c key
      gpnNetPhase use_network single_word_english key fallback net (some c2) [c2]
  | none => gpnNetPhase use_network single_word_english key fallback net none []

/-- config.py `PointLocation`. -/
structure PointLocation where
  name : String
  lat : ℚ
  lon : ℚ
  radius_km : ℚ
deriving DecidableEq

/-- config.py `BoundsLocation`. -/
structure BoundsLocation where
  name : String
  min_lat : ℚ
  max_lat : ℚ
  min_lon : ℚ
  max_lon : ℚ
deriving DecidableEq

/-- config.py `LocationDef = PointLocation | BoundsLocation`. -/
inductive LocationDef
  | point (p : PointLocation)
  | bounds (b : BoundsLocation)
deriving DecidableEq

/-- config.py `SorterConfig` (the fields the core reads). -/
structure SorterConfig where
  locations : List LocationDef
  uncategorized_behavior : String
  uncategorized_folder_name : String
  match_radius_km : ℚ

/-- location_matcher.py `point_in_bounds`: inclusive box containment. -/
def point_in_bounds (lat lon : ℚ) (loc : BoundsLocation) : Bool :=
  decide (loc.min_lat ≤ lat) && decide (lat ≤ loc.max_lat) &&
    decide (loc.min_lon ≤ lon) && decide (lon ≤ loc.max_lon)

/-- location_matcher.py `match_point_location`, parameterized by the distance
function. `haversine_km` is transcendental floating-point trigonometry with
no exact rational value, so the distance computation is a parameter
`distFn`; everything the matcher itself does (the `<=` radius comparison
and the `(matches, distance)` result) is embedded faithfully. -/
def match_point_location (distFn : ℚ → ℚ → ℚ → ℚ → ℚ) (lat lon : ℚ)
    (loc : PointLocation) : Bool × ℚ :=
  let d := distFn lat lon loc.lat loc.lon
  (decide (d ≤ loc.radius_km), d)

/-- The first pass of `match_location`: scan the definitions in declared
order and return the name of the first Bounds containing the point. -/
def firstBoundsHit (lat lon : ℚ) : List LocationDef → Option String
  | [] => none
  | .bounds b :: rest =>
    if point_in_bounds lat lon b then some b.name else firstBoundsHit lat lon rest
  | .point _ :: rest => firstBoundsHit lat lon rest

/-- The second pass of `match_location`: fold over the definitions keeping
the best `(name, distance)` so far, replacing it only on a strictly smaller
distance of a matching Point (`matches and dist < best_dist_km`, with the
initial best distance `float("inf")` modelled as `none`). -/
def bestPointAux (distFn : ℚ → ℚ → ℚ → ℚ → ℚ) (lat lon : ℚ)
    (acc : Option (String × ℚ)) : List LocationDef → Option (String × ℚ)
  | [] => acc
  | .bounds _ :: rest => bestPointAux distFn lat lon acc rest
  | .point p :: rest =>
    let md := match_point_location distFn lat lon p
    let better := match acc with
      | none => true
      | some (_, bd) => decide (md.2 < bd)
    bestPointAux distFn lat lon
      (if md.1 && better then some (p.name, md.2) else acc) rest

/-- location_matcher.py `match_location`. -/
def match_location (distFn : ℚ → ℚ → ℚ → ℚ → ℚ) (lat lon : ℚ)
    (config : SorterConfig) : Option String :=
  if config.locations.isEmpty then none
  else
    match firstBoundsHit lat lon config.locations with
    | some name => some name
    | none => (bestPointAux distFn lat lon none config.locations).map (fun e => e.1)

/-- Name of a location definition. -/
def locName : LocationDef → String
  | .point p => p.name
  | .bounds b => b.name

/-- Whether a definition is a Bounds containing the coordinate (what the
first pass of `match_location` tests). -/
def isBoundsHit (lat lon : ℚ) : LocationDef → Bool
  | .bounds b => point_in_bounds lat lon b
  | .point _ => false

/-- Whether a definition is a Point whose radius covers the coordinate
(what the second pass of `match_location` tests). -/
def isPointHit (distFn : ℚ → ℚ → ℚ → ℚ → ℚ) (lat lon : ℚ) : LocationDef → Bool
  | .point p => (match_point_location distFn lat lon p).1
  | .bounds _ => false

/-- Distance from the coordinate to a Point definition (0 for Bounds, never
used there). -/
def pDist (distFn : ℚ → ℚ → ℚ → ℚ → ℚ) (lat lon : ℚ) : LocationDef → ℚ
  | .point p => distFn lat lon p.lat p.lon
  | .bounds _ => 0

/-- One input photo of a run: its path and the behaviour of the external
EXIF collaborator on it (`get_gps_from_image` returning an optional
coordinate, or raising). -/
structure Photo where
  path : String
  exif : Except String (Option (ℚ × ℚ))

/-- The summary dict returned by cli.py `run`, plus the `moves` trace: one
`(path, folder name)` entry per successful copy/move, in order. The
file-operation collaborator is modelled as always succeeding (its consumed
contract creates directories and avoids collisions). -/
structure RunSummary where
  total : ℕ
  sorted : ℕ
  skipped_no_gps : ℕ
  skipped_no_match_left : ℕ
  skipped_other : ℕ
  errors : List (String × String)
  moves : List (String × String)

/-- Intermediate counters of the config-mode photo loop. -/
structure ConfigModeState where
  sorted : ℕ
  skipped_no_gps : ℕ
  skipped_left : ℕ
  errors : List (String × String)
  moves : List (String × String)

/-- One iteration of the config-mode loop of cli.py `run` (lines 237-289):
no GPS routes to "Skipped" (counting as sorted and as skipped_no_gps); a
match is single-word-normalized or sanitized and copied; no match applies
the uncategorized behaviour; an EXIF error is recorded. -/
def configModeStep (distFn : ℚ → ℚ → ℚ → ℚ → ℚ) (config : SorterConfig)
    (single_word_english : Bool) (s : ConfigModeState) (photo : Photo) :
    ConfigModeState :=
  match photo.exif with
  | .error e => { s with errors := s.errors ++ [(photo.path, e)] }
  | .ok none =>
    { s with
      skipped_no_gps := s.skipped_no_gps + 1
      sorted := s.sorted + 1
      moves := s.moves ++ [(photo.path, "Skipped")] }
  | .ok (some (lat, lon)) =>
    match match_location distFn lat lon config with
    | none =>
      if config.uncategorized_behavior = "leave_in_place" then
        { s with skipped_left := s.skipped_left + 1 }
      else
        { s with
          sorted := s.sorted + 1
          moves := s.moves ++
            [(photo.path, sanitize_folder_name config.uncategorized_folder_name)] }
    | some name =>
      let folder := if single_word_english then to_single_word_english name
                    else sanitize_folder_name name
      { s with
        sorted := s.sorted + 1
        moves := s.moves ++ [(photo.path, folder)] }

/-- Association-list update keyed by cluster centers, preserving insertion
order (`defaultdict(list)` whose values are appended to). -/
def clusterAdd (m : List ((ℚ × ℚ) × List (String × ℚ × ℚ))) (k : ℚ × ℚ)
    (v : String × ℚ × ℚ) : List ((ℚ × ℚ) × List (String × ℚ × ℚ)) :=
  if m.any (fun e => decide (e.1 = k)) then
    m.map (fun e => if e.1 = k then (e.1, e.2 ++ [v]) else e)
  else m ++ [(k, [v])]

/-- Lookup in the cluster-to-folder map. -/
def clusterGet (m : List ((ℚ × ℚ) × String)) (k : ℚ × ℚ) : Option String :=
  (m.find? (fun e => decide (e.1 = k))).map (fun e => e.2)

/-- One iteration of phase 1 of auto mode (cli.py lines 129-145): extract
GPS for one photo, extending the accumulated clustered photos (keyed by
`cluster_key`), no-GPS paths, or EXIF errors. -/
def autoCollectStep (cluster_radius_km : ℚ)
    (acc : List ((ℚ × ℚ) × List (String × ℚ × ℚ)) × List String × List (String × String))
    (photo : Photo) :
    List ((ℚ × ℚ) × List (String × ℚ × ℚ)) × List String × List (String × String) :=
  match photo.exif with
  | .error e => (acc.1, acc.2.1, acc.2.2 ++ [(photo.path, e)])
  | .ok none => (acc.1, acc.2.1 ++ [photo.path], acc.2.2)
  | .ok (some (lat, lon)) =>
    (clusterAdd acc.1 (cluster_key lat lon cluster_radius_km) (photo.path, lat, lon),
      acc.2.1, acc.2.2)

/-- Phase 1 of auto mode: the collection loop over all photos. -/
def autoCollect (cluster_radius_km : ℚ) (photos : List Photo) :
    List ((ℚ × ℚ) × List (String × ℚ × ℚ)) × List String × List (String × String) :=
  photos.foldl (autoCollectStep cluster_radius_km) ([], [], [])

/-- The per-cluster folder-name resolution of auto mode (cli.py lines
168-201): geocode the first photo's actual coordinates (cache keyed at the
cluster precision), replace a failed single-word geocode result that is
literally "Unknown" by the coordinate-based name of the cluster center, and
sanitize. Threads the cache file through successive `get_place_name` calls
and propagates the exception raised on the buggy 3-tuple unpacking. -/
def resolveClusters (geocode : Bool) (single_word_english : Bool)
    (cluster_precision : ℕ) (net : ℚ → ℚ → NomResponse) :
    Option Cache → List ((ℚ × ℚ) × String) →
    List ((ℚ × ℚ) × List (String × ℚ × ℚ)) →
    Except PyErr (Option Cache × List ((ℚ × ℚ) × String))
  | fs, folderMap, [] => .ok (fs, folderMap)
  | fs, folderMap, (center, paths) :: rest =>
    let actual := match paths with
      | [] => (0, 0)
      | (_, la, lo) :: _ => (la, lo)
    if geocode && fs.isSome then
      let r := get_place_name actual.1 actual.2 fs true single_word_english
        (some cluster_precision) (net actual.1 actual.2)
      match r.outcome with
      | .error e => .error e
      | .ok folder_name =>
        let folder_name2 :=
          if single_word_english &&
              ((strStartsWith folder_name "Lat" && strContains folder_name "Lon") ||
                folder_name = "Unknown") then
            if folder_name = "Unknown" then
              rounded_coords_folder_name center.1 center.2 single_word_english
            else folder_name
          else folder_name
        resolveClusters geocode single_word_english cluster_precision net r.fs
          (folderMap ++ [(center, sanitize_folder_name folder_name2)]) rest
    else
      resolveClusters geocode single_word_english cluster_precision net fs
        (folderMap ++
          [(center, sanitize_folder_name
            (rounded_coords_folder_name center.1 center.2 single_word_english))]) rest

/-- Phase 4 of auto mode (cli.py lines 217-230): copy/move every clustered
photo into its cluster's folder, counting each as sorted. -/
def autoMoveClusters (folderMap : List ((ℚ × ℚ) × String))
    (clusters : List ((ℚ × ℚ) × List (String × ℚ × ℚ)))
    (sorted0 : ℕ) (moves0 : List (String × String)) : ℕ × List (String × String) :=
  clusters.foldl
    (fun acc cl =>
      let folder := (clusterGet folderMap cl.1).getD "Unknown"
      cl.2.foldl (fun acc2 pe => (acc2.1 + 1, acc2.2 ++ [(pe.1, folder)])) acc)
    (sorted0, moves0)

/-- cli.py `run`, modelled per photo list (the recursive directory scan and
image-extension filter are the identity on the already-listed image files).
`cacheFile` is the contents of the geocode cache file when a cache path was
set; `net` gives the Nominatim behaviour per queried coordinate; `distFn`
is the haversine distance oracle used in config mode. The copy/move
collaborator is modelled as always succeeding. A raised `ValueError` from
the cluster resolution loop (which the source does not catch) aborts the
run. -/
def run (photos : List Photo) (config : SorterConfig)
    (distFn : ℚ → ℚ → ℚ → ℚ → ℚ) (geocode : Bool) (cacheFile : Option Cache)
    (cluster_radius_km : ℚ) (single_word_english : Bool)
    (net : ℚ → ℚ → NomResponse) : Except PyErr RunSummary :=
  let total := photos.length
  if total = 0 then
    .ok ⟨0, 0, 0, 0, 0, [], []⟩
  else if config.locations.isEmpty then
    -- auto mode
    let (clusters, noGps, errs) := autoCollect cluster_radius_km photos
    let sorted1 := noGps.length
    let skippedNoGps := noGps.length
    let moves1 := noGps.map (fun p => (p, "Skipped"))
    let cluster_precision := cluster_precision_from_radius_km cluster_radius_km
    match resolveClusters geocode single_word_english cluster_precision net
        cacheFile [] clusters with
    | .error e => .error e
    | .ok (_, folderMap) =>
      let (sorted2, moves2) := autoMoveClusters folderMap clusters sorted1 moves1
      let skipped_other : ℕ :=
        ((total : ℤ) - sorted2 - skippedNoGps - errs.length).toNat
      .ok ⟨total, sorted2, skippedNoGps, 0, skipped_other, errs, moves2⟩
  else
    -- config mode
    let s := photos.foldl (configModeStep distFn config single_word_english)
      ⟨0, 0, 0, [], []⟩
    let skipped_other : ℕ :=
      ((total : ℤ) - s.sorted - s.skipped_no_gps - s.skipped_left -
        s.errors.length).toNat
    .ok ⟨total, s.sorted, s.skipped_no_gps, s.skipped_left, skipped_other, s.errors,
      s.moves⟩

/-- Whether a photo's EXIF extraction succeeded with no GPS coordinate
(`gps is None` in cli.py `run`). -/
def hasNoGps (p : Photo) : Bool :=
  match p.exif with
  | .ok none => true
  | _ => false

/-! ### Helper lemmas about the dictionary model -/

theorem dictGet_cons_pos (e : String × String) (c : Cache) (k : String) (h : e.1 = k) :
    dictGet (e :: c) k = some e.2 := by
  unfold dictGet
  rw [List.find?_cons_of_pos c (by simpa using h)]
  rfl

theorem dictGet_cons_neg (e : String × String) (c : Cache) (k : String) (h : ¬e.1 = k) :
    dictGet (e :: c) k = dictGet c k := by
  unfold dictGet
  rw [List.find?_cons_of_neg c (by simpa using h)]

/-- Writing a key then reading it back yields the written value. -/
theorem dictGet_dictSet_self (c : Cache) (k v : String) :
    dictGet (dictSet c k v) k = some v := by
  unfold dictSet
  by_cases h : c.any (fun e => decide (e.1 = k)) = true
  · rw [if_pos h]
    induction c with
    | nil => simp at h
    | cons e rest ih =>
      simp only [List.any_cons, Bool.or_eq_true, decide_eq_true_eq] at h
      by_cases he : e.1 = k
      · rw [List.map_cons, if_pos he, dictGet_cons_pos (k, v) _ k rfl]
      · rw [List.map_cons, if_neg he, dictGet_cons_neg _ _ _ he]
        exact ih (h.resolve_left he)
  · rw [if_neg h]
    simp only [List.any_eq_true, decide_eq_true_eq, not_exists, not_and] at h
    induction c with
    | nil => exact dictGet_cons_pos (k, v) [] k rfl
    | cons e rest ih =>
      rw [List.cons_append, dictGet_cons_neg _ _ _ (h e (List.mem_cons_self e rest))]
      exact ih (fun x hx => h x (List.mem_cons_of_mem e hx))

/-- Removing a key makes it unreadable. -/
theorem dictGet_dictPop_self (c : Cache) (k : String) :
    dictGet (dictPop c k) k = none := by
  induction c with
  | nil => rfl
  | cons e rest ih =>
    by_cases he : e.1 = k
    · have : dictPop (e :: rest) k = dictPop rest k := by
        simp only [dictPop, List.filter_cons, decide_not, he, decide_eq_true_eq]
        simp
      rw [this]; exact ih
    · have : dictPop (e :: rest) k = e :: dictPop rest k := by
        simp only [dictPop, List.filter_cons, decide_not]
        rw [if_pos (by simpa using he)]
      rw [this, dictGet_cons_neg _ _ _ he]; exact ih

/-- Removing one key leaves every other key unchanged. -/
theorem dictGet_dictPop_ne (c : Cache) (k k2 : String) (h : k2 ≠ k) :
    dictGet (dictPop c k) k2 = dictGet c k2 := by
  induction c with
  | nil => rfl
  | cons e rest ih =>
    by_cases he : e.1 = k
    · have hpop : dictPop (e :: rest) k = dictPop rest k := by
        simp only [dictPop, List.filter_cons, decide_not, he, decide_eq_true_eq]
        simp
      have hne2 : ¬e.1 = k2 := by rw [he]; exact fun hh => h hh.symm
      rw [hpop, ih, dictGet_cons_neg _ _ _ hne2]
    · have hpop : dictPop (e :: rest) k = e :: dictPop rest k := by
        simp only [dictPop, List.filter_cons, decide_not]
        rw [if_pos (by simpa using he)]
      by_cases h2 : e.1 = k2
      · rw [hpop, dictGet_cons_pos _ _ _ h2, dictGet_cons_pos _ _ _ h2]
      · rw [hpop, dictGet_cons_neg _ _ _ h2, dictGet_cons_neg _ _ _ h2]
        exact ih

/-! ### Claim theorems -/

set_option maxRecDepth 8000

/-- C1: the claim states that `get_place_name` never raises for any
behaviour of the external lookup, in particular through the
neighbourhood/city/county/municipality/state fallback branch, and that a
run never aborts because of it. Evaluating the code at the failing input —
a coordinate whose Nominatim address carries only a "city" component —
shows the opposite: `_fetch_nominatim` executes the 3-tuple statement
`return name, address, address` (geocode.py line 290), the 2-variable
unpacking in `get_place_name` raises `ValueError`, and an auto-mode run
with geocoding aborts with that exception instead of returning a summary. -/
theorem C1_fallback_branch_raises :
    (get_place_name 25 ((243 : ℚ)/2) none true false none
      (.success false [("city", "Taipei")] "")).outcome = .error .valueError ∧
    run [⟨"a.jpg", .ok (some (25, (243 : ℚ)/2))⟩]
      ⟨[], "folder", "Uncategorized", 1/2⟩ (fun _ _ _ _ => 0) true (some []) 10 true
      (fun _ _ => .success false [("city", "Taipei")] "") = .error .valueError :=
  ⟨rfl, rfl⟩

/-- C2: of the three claimed equalities for `to_single_word_english`, the
empty-string and pure-5-digit cases hold, but `"Taipei 101"` evaluates to
`"Taipei"`, not `"Taipei101"`: the token filter keeps only numeric tokens
of length strictly greater than 3, so the 3-digit token "101" is dropped —
contradicting the function's own docstring, the comment on the filter line,
and test_geocode.py. -/
theorem C2_taipei101_evaluation :
    to_single_word_english "Taipei 101" = "Taipei" ∧
    to_single_word_english "" = "Unknown" ∧
    to_single_word_english "12345" = "Unknown" ∧
    to_single_word_english "Taipei 101" ≠ "Taipei101" := by
  refine ⟨rfl, rfl, rfl, ?_⟩
  decide

/-- C3 counterexample: the cache round-trip property fails for the external
name "Latrobe Longford". The first (network, fresh cache) resolution in
single-word mode returns "LatrobeLongford" and caches the raw name; the
second (cache-hit, offline) resolution rejects the cached value as a
coordinate-fallback lookalike (it starts with "Lat" and contains "Lon"),
evicts it, and returns the coordinate fallback instead of the same name. -/
theorem C3_roundtrip_counterexample :
    (get_place_name 25 ((243 : ℚ)/2) (some []) true true none
      (.success false [("tourism", "Latrobe Longford")] "")).outcome =
        .ok "LatrobeLongford" ∧
    (get_place_name 25 ((243 : ℚ)/2)
      (get_place_name 25 ((243 : ℚ)/2) (some []) true true none
        (.success false [("tourism", "Latrobe Longford")] "")).fs
      false true none .failure).outcome = .ok "Lat25_0Lon121_5" ∧
    ("LatrobeLongford" : String) ≠ "Lat25_0Lon121_5" := by
  refine ⟨rfl, rfl, ?_⟩
  decide

/-- C4 counterexample: with the external lookup succeeding with the name
"12" (a tourism component), every normalization attempt fails
(`to_single_word_english "12" = "Unknown"`, `_name_to_safe_folder "12" =
"Unknown"`, and the CJK retry is skipped since "12" has no CJK characters);
`get_place_name` returns the coordinate fallback, but nothing is written to
the cache — the raw successful name is not persisted, contrary to the
claim. -/
theorem C4_no_cache_write_counterexample :
    to_single_word_english "12" = "Unknown" ∧
    name_to_safe_folder "12" = "Unknown" ∧
    has_chinese_characters "12" = false ∧
    (get_place_name 25 ((243 : ℚ)/2) (some []) true true none
      (.success false [("tourism", "12")] "")) =
      ⟨.ok "Lat25_0Lon121_5", some [], []⟩ ∧
    dictGet [] (cache_key 25 ((243 : ℚ)/2) none) = none :=
  ⟨rfl, rfl, rfl, rfl, rfl⟩

/-- C3 amended: the cache round-trip holds for every external name that the
validation of a later cache hit does not reject — i.e. whose stripped form
does not both start with "Lat" and contain "Lon", is not a 3-to-6-digit
numeric string, and (in single-word mode) whose primary normalization is
not "Unknown". For such names, resolving with network and a cache missing
the key and then resolving again offline against the updated cache returns
the same converted name. -/
theorem C3_roundtrip_amended
    (lat lon : ℚ) (c : Cache) (single : Bool) (prec : Option ℕ)
    (net net2 : NomResponse) (n : String) (addr? : Option NomAddress)
    (hf : fetch_nominatim net = .tuple2 (some n) addr?)
    (hn : n ≠ "")
    (hmiss : dictGet c (cache_key lat lon prec) = none)
    (hconv : single = true → to_single_word_english n ≠ "Unknown")
    (hlat2 : ¬(strStartsWith (pyStrip n) "Lat" = true ∧ strContains (pyStrip n) "Lon" = true))
    (hdig : ¬(pyStrIsDigit (pyStrip n) = true ∧ 3 ≤ (pyStrip n).length ∧ (pyStrip n).length ≤ 6)) :
    (get_place_name lat lon (some c) true single prec net).outcome =
      .ok (gpnConvert single n) ∧
    (get_place_name lat lon (get_place_name lat lon (some c) true single prec net).fs
      false single prec net2).outcome = .ok (gpnConvert single n) := by
  have hstep : gpnCacheStep single (cache_key lat lon prec) c = .miss := by
    unfold gpnCacheStep; rw [hmiss]
  have hname : gpnNamePhase n addr? single (cache_key lat lon prec)
      (rounded_coords_folder_name lat lon single) (some c) [] =
      ⟨.ok (gpnConvert single n),
        some (dictSet c (cache_key lat lon prec) n),
        [dictSet c (cache_key lat lon prec) n]⟩ := by
    cases single with
    | false => simp [gpnNamePhase, gpnWriteReturn, gpnConvert]
    | true =>
      simp only [gpnNamePhase, if_true]
      rw [if_neg (hconv rfl)]
      simp [gpnWriteReturn, gpnConvert]
  have hr1 : get_place_name lat lon (some c) true single prec net =
      ⟨.ok (gpnConvert single n),
        some (dictSet c (cache_key lat lon prec) n),
        [dictSet c (cache_key lat lon prec) n]⟩ := by
    simp only [get_place_name, hstep]
    simp only [gpnNetPhase, hf, Bool.not_true, Bool.false_eq_true, if_false]
    rw [if_neg hn]
    exact hname
  have hstep2 : gpnCacheStep single (cache_key lat lon prec)
      (dictSet c (cache_key lat lon prec) n) = .hitReturn (gpnConvert single n) := by
    simp only [gpnCacheStep, dictGet_dictSet_self]
    rw [if_neg hn]
    rw [if_neg (by simpa [Bool.and_eq_true] using hlat2)]
    rw [if_neg (by simp only [Bool.and_eq_true, decide_eq_true_eq, not_and]; tauto)]
    rw [if_pos (by
      cases single with
      | false => simp
      | true =>
        simp only [Bool.not_true, Bool.or_false, decide_eq_true_eq, gpnConvert, if_true]
        exact hconv rfl)]
  refine ⟨by rw [hr1], ?_⟩
  rw [hr1]
  simp only [get_place_name, hstep2]

/-- C3 witness: a concrete instantiation of the amended round-trip (the
name "Taipei" resolved in single-word mode at (25, 121.5)). -/
theorem C3_roundtrip_amended_witness :
    (get_place_name 25 ((243 : ℚ)/2) (some []) true true none
      (.success false [("tourism", "Taipei")] "")).outcome =
        .ok (gpnConvert true "Taipei") ∧
    (get_place_name 25 ((243 : ℚ)/2)
      (get_place_name 25 ((243 : ℚ)/2) (some []) true true none
        (.success false [("tourism", "Taipei")] "")).fs
      false true none .failure).outcome = .ok (gpnConvert true "Taipei") :=
  C3_roundtrip_amended 25 ((243 : ℚ)/2) [] true none
    (.success false [("tourism", "Taipei")] "") .failure "Taipei"
    (some [("tourism", "Taipei")]) rfl (by decide) rfl (fun _ => by decide)
    (by decide) (by decide)

/-- C4 amended: in single-word mode, when the external lookup succeeds but
normalization of the returned name fails at every attempt (primary
normalizer, lenient fallback, and the CJK village/suburb retry),
`get_place_name` returns the coordinate fallback and nothing is written to
the cache — the raw name is not persisted on this path. -/
theorem C4_failed_normalization_amended
    (lat lon : ℚ) (c : Cache) (prec : Option ℕ) (net : NomResponse)
    (n : String) (addr? : Option NomAddress)
    (hf : fetch_nominatim net = .tuple2 (some n) addr?)
    (hn : n ≠ "")
    (hmiss : dictGet c (cache_key lat lon prec) = none)
    (hconv : to_single_word_english n = "Unknown")
    (hsafe : name_to_safe_folder n = "Unknown")
    (hretry : ∀ a, addr? = some a →
      (has_chinese_characters n && !a.isEmpty) = false ∨
        cjkRetryScan a ["village", "suburb"] = none) :
    get_place_name lat lon (some c) true true prec net =
      ⟨.ok (rounded_coords_folder_name lat lon true), some c, []⟩ := by
  have hstep : gpnCacheStep true (cache_key lat lon prec) c = .miss := by
    unfold gpnCacheStep; rw [hmiss]
  simp only [get_place_name, hstep]
  simp only [gpnNetPhase, hf, Bool.not_true, Bool.false_eq_true, if_false]
  rw [if_neg hn]
  simp only [gpnNamePhase, if_true, hconv, if_pos rfl]
  rw [if_neg (by simp [hsafe])]
  cases addr? with
  | none => rfl
  | some a =>
    rcases hretry a rfl with hcond | hscan
    · simp only [hcond, Bool.false_eq_true, if_false]
    · by_cases hcond : (has_chinese_characters n && !a.isEmpty) = true
      · simp only [hcond, if_true, hscan]
      · simp only [Bool.not_eq_true] at hcond
        simp only [hcond, Bool.false_eq_true, if_false]

/-- C4 witness: a concrete instantiation of the amended statement at the
external name "12". -/
theorem C4_failed_normalization_amended_witness :
    get_place_name 25 ((243 : ℚ)/2) (some []) true true none
      (.success false [("tourism", "12")] "") =
      ⟨.ok (rounded_coords_folder_name 25 ((243 : ℚ)/2) true), some [], []⟩ :=
  C4_failed_normalization_amended 25 ((243 : ℚ)/2) [] none
    (.success false [("tourism", "12")] "") "12" (some [("tourism", "12")])
    rfl (by decide) rfl rfl rfl
    (fun a ha => by cases ha; exact Or.inl (by decide))

/-- C6: the Point radius boundary is inclusive — a coordinate at distance
exactly `radius_km` matches, and any strictly greater distance does not.
Stated for every distance oracle, coordinate and Point definition. -/
theorem C6_point_radius_boundary
    (distFn : ℚ → ℚ → ℚ → ℚ → ℚ) (lat lon : ℚ) (loc : PointLocation) :
    (distFn lat lon loc.lat loc.lon = loc.radius_km →
      (match_point_location distFn lat lon loc).1 = true) ∧
    (loc.radius_km < distFn lat lon loc.lat loc.lon →
      (match_point_location distFn lat lon loc).1 = false) := by
  constructor
  · intro h
    simp [match_point_location, h]
  · intro h
    simp [match_point_location, not_le.mpr h]

/-- C6 witness: concrete boundary checks with a constant distance oracle. -/
theorem C6_point_radius_boundary_witness :
    (match_point_location (fun _ _ _ _ => 1) 0 0 ⟨"A", 0, 0, 1⟩).1 = true ∧
    (match_point_location (fun _ _ _ _ => 1) 0 0 ⟨"B", 0, 0, 1/2⟩).1 = false :=
  ⟨(C6_point_radius_boundary (fun _ _ _ _ => 1) 0 0 ⟨"A", 0, 0, 1⟩).1 rfl,
   (C6_point_radius_boundary (fun _ _ _ _ => 1) 0 0 ⟨"B", 0, 0, 1/2⟩).2 (by decide)⟩

/-! ### Write-trace lemmas for `get_place_name` -/

theorem gpnWriteReturn_writes_extend (k r cv : String) (fs : Option Cache)
    (ws : List Cache) : ∃ t, (gpnWriteReturn k r cv fs ws).writes = ws ++ t := by
  cases fs with
  | some c => exact ⟨[dictSet c k cv], rfl⟩
  | none => exact ⟨[], by simp [gpnWriteReturn]⟩

theorem gpnNamePhase_writes_extend (n : String) (addr? : Option NomAddress)
    (single : Bool) (k fb : String) (fs : Option Cache) (ws : List Cache) :
    ∃ t, (gpnNamePhase n addr? single k fb fs ws).writes = ws ++ t := by
  unfold gpnNamePhase
  cases single with
  | false =>
    simp only [Bool.false_eq_true, if_false]
    exact gpnWriteReturn_writes_extend _ _ _ _ _
  | true =>
    simp only [if_true]
    by_cases hc : to_single_word_english n = "Unknown"
    · rw [if_pos hc]
      by_cases hf2 : name_to_safe_folder n ≠ "Unknown"
      · rw [if_pos hf2]
        exact gpnWriteReturn_writes_extend _ _ _ _ _
      · rw [if_neg hf2]
        cases addr? with
        | none => exact ⟨[], by simp⟩
        | some a =>
          dsimp only
          by_cases hch : (has_chinese_characters n && !a.isEmpty) = true
          · rw [if_pos hch]
            cases hscan : cjkRetryScan a ["village", "suburb"] with
            | some pair =>
              cases pair
              exact gpnWriteReturn_writes_extend _ _ _ _ _
            | none => exact ⟨[], by simp⟩
          · rw [if_neg hch]
            exact ⟨[], by simp⟩
    · rw [if_neg hc]
      exact gpnWriteReturn_writes_extend _ _ _ _ _

theorem gpnNonePhase_writes_extend (isNone : Bool) (addr? : Option NomAddress)
    (single : Bool) (k fb : String) (fs : Option Cache) (ws : List Cache) :
    ∃ t, (gpnNonePhase isNone addr? single k fb fs ws).writes = ws ++ t := by
  unfold gpnNonePhase
  cases addr? with
  | none => exact ⟨[], by simp⟩
  | some a =>
    dsimp only
    by_cases hc : (isNone && !a.isEmpty) = true
    · rw [if_pos hc]
      cases hscan : noneFallbackScan single a ["village", "suburb"] with
      | some pair =>
        cases pair
        exact gpnWriteReturn_writes_extend _ _ _ _ _
      | none => exact ⟨[], by simp⟩
    · rw [if_neg hc]
      exact ⟨[], by simp⟩

theorem gpnNetPhase_writes_extend (use_network single : Bool) (k fb : String)
    (net : NomResponse) (fs : Option Cache) (ws : List Cache) :
    ∃ t, (gpnNetPhase use_network single k fb net fs ws).writes = ws ++ t := by
  unfold gpnNetPhase
  cases use_network with
  | false => exact ⟨[], by simp⟩
  | true =>
    simp only [Bool.not_true, Bool.false_eq_true, if_false]
    cases fetch_nominatim net with
    | tuple3 a b c2 => exact ⟨[], by simp⟩
    | tuple2 name? addr? =>
      cases name? with
      | none => exact gpnNonePhase_writes_extend _ _ _ _ _ _ _
      | some n =>
        dsimp only
        by_cases hn : n = ""
        · rw [if_pos hn]
          exact gpnNonePhase_writes_extend _ _ _ _ _ _ _
        · rw [if_neg hn]
          exact gpnNamePhase_writes_extend _ _ _ _ _ _ _

/-- C10: whenever the cache-validation of `get_place_name` evicts an entry
— its value starts with "Lat" and contains "Lon", or is a purely numeric
string of 3 to 6 digits, or (in single-word mode) normalizes to "Unknown"
— the first cache file written is exactly the loaded cache with that one
key removed: the evicted key is gone and every other key keeps its value. -/
theorem C10_eviction_frame
    (lat lon : ℚ) (c : Cache) (use_network single : Bool) (prec : Option ℕ)
    (net : NomResponse) (raw : String)
    (hget : dictGet c (cache_key lat lon prec) = some raw)
    (hne : raw ≠ "")
    (hcase :
      (strStartsWith (pyStrip raw) "Lat" && strContains (pyStrip raw) "Lon") = true ∨
      (pyStrIsDigit (pyStrip raw) && decide (3 ≤ (pyStrip raw).length) &&
        decide ((pyStrip raw).length ≤ 6)) = true ∨
      (single = true ∧ to_single_word_english raw = "Unknown")) :
    (get_place_name lat lon (some c) use_network single prec net).writes.head? =
      some (dictPop c (cache_key lat lon prec)) ∧
    dictGet (dictPop c (cache_key lat lon prec)) (cache_key lat lon prec) = none ∧
    ∀ k2, k2 ≠ cache_key lat lon prec →
      dictGet (dictPop c (cache_key lat lon prec)) k2 = dictGet c k2 := by
  have hstep : gpnCacheStep single (cache_key lat lon prec) c = .evict := by
    simp only [gpnCacheStep, hget]
    rw [if_neg hne]
    by_cases h1 : (strStartsWith (pyStrip raw) "Lat" && strContains (pyStrip raw) "Lon") = true
    · rw [if_pos h1]
    · rw [if_neg h1]
      by_cases h2 : (pyStrIsDigit (pyStrip raw) && decide (3 ≤ (pyStrip raw).length) &&
          decide ((pyStrip raw).length ≤ 6)) = true
      · rw [if_pos h2]
      · rw [if_neg h2]
        rcases hcase with hc | hc | ⟨hs, hu⟩
        · exact absurd hc h1
        · exact absurd hc h2
        · rw [if_neg (by simp [hs, gpnConvert, hu])]
  constructor
  · simp only [get_place_name, hstep]
    obtain ⟨t, ht⟩ := gpnNetPhase_writes_extend use_network single
      (cache_key lat lon prec) (rounded_coords_folder_name lat lon single) net
      (some (dictPop c (cache_key lat lon prec))) [dictPop c (cache_key lat lon prec)]
    rw [ht]
    rfl
  · exact ⟨dictGet_dictPop_self c _,
      fun k2 h2 => dictGet_dictPop_ne c _ k2 h2⟩

/-- C10 witness: a concrete eviction (a cached coordinate-fallback
lookalike) rewrites the file with only that key removed. -/
theorem C10_eviction_frame_witness :
    (get_place_name 25 ((243 : ℚ)/2)
      (some [("a", "b"), ("25.0,121.5", "Lat9_9Lon9_9")]) false true none
      .failure).writes.head? = some [("a", "b")] ∧
    dictGet [("a", "b")] (cache_key 25 ((243 : ℚ)/2) none) = none ∧
    dictGet [("a", "b")] "a" =
      dictGet [("a", "b"), ("25.0,121.5", "Lat9_9Lon9_9")] "a" := by
  obtain ⟨h1, h2, h3⟩ := C10_eviction_frame 25 ((243 : ℚ)/2)
    [("a", "b"), ("25.0,121.5", "Lat9_9Lon9_9")] false true none .failure
    "Lat9_9Lon9_9" (by decide) (by decide) (Or.inl (by decide))
  exact ⟨h1, h2, h3 "a" (by decide)⟩

/-! ### Matcher lemmas -/

theorem firstBoundsHit_skip_miss (lat lon : ℚ) (l1 : List LocationDef)
    (l' : List LocationDef) (hpre : ∀ x ∈ l1, isBoundsHit lat lon x = false) :
    firstBoundsHit lat lon (l1 ++ l') = firstBoundsHit lat lon l' := by
  induction l1 with
  | nil => rfl
  | cons x rest ih =>
    cases x with
    | point p =>
      simp only [List.cons_append, firstBoundsHit]
      exact ih (fun y hy => hpre y (List.mem_cons_of_mem _ hy))
    | bounds b =>
      have hb : point_in_bounds lat lon b = false := by
        simpa [isBoundsHit] using hpre (.bounds b) (List.mem_cons_self _ _)
      simp only [List.cons_append, firstBoundsHit, hb, Bool.false_eq_true, if_false]
      exact ih (fun y hy => hpre y (List.mem_cons_of_mem _ hy))

theorem firstBoundsHit_of_none (lat lon : ℚ) (l : List LocationDef)
    (h : ∀ x ∈ l, isBoundsHit lat lon x = false) :
    firstBoundsHit lat lon l = none := by
  have := firstBoundsHit_skip_miss lat lon l [] h
  simpa using this

theorem bestPointAux_no_better (distFn : ℚ → ℚ → ℚ → ℚ → ℚ) (lat lon : ℚ) :
    ∀ (l : List LocationDef) (acc : Option (String × ℚ)),
    (∀ loc ∈ l, isPointHit distFn lat lon loc = true →
      ∃ nm d0, acc = some (nm, d0) ∧ d0 ≤ pDist distFn lat lon loc) →
    bestPointAux distFn lat lon acc l = acc := by
  intro l
  induction l with
  | nil => intro acc _; rfl
  | cons x rest ih =>
    intro acc h
    cases x with
    | bounds b =>
      simp only [bestPointAux]
      exact ih acc (fun loc hm hh => h loc (List.mem_cons_of_mem _ hm) hh)
    | point p =>
      by_cases hp : (match_point_location distFn lat lon p).1 = true
      · obtain ⟨nm, d0, hacc, hle⟩ :=
          h (.point p) (List.mem_cons_self _ _) (by simpa [isPointHit] using hp)
        subst hacc
        have hnlt : ¬((match_point_location distFn lat lon p).2 < d0) := by
          simpa [pDist, match_point_location] using not_lt.mpr hle
        simp only [bestPointAux]
        rw [if_neg (by simp [hnlt])]
        exact ih _ (fun loc hm hh => h loc (List.mem_cons_of_mem _ hm) hh)
      · simp only [bestPointAux]
        rw [if_neg (by simp [hp])]
        exact ih acc (fun loc hm hh => h loc (List.mem_cons_of_mem _ hm) hh)

theorem bestPointAux_first_min (distFn : ℚ → ℚ → ℚ → ℚ → ℚ) (lat lon : ℚ) :
    ∀ (l1 : List LocationDef) (loc : LocationDef) (l2 : List LocationDef)
      (acc : Option (String × ℚ)),
    isPointHit distFn lat lon loc = true →
    (∀ nm d0, acc = some (nm, d0) → pDist distFn lat lon loc < d0) →
    (∀ x ∈ l1 ++ loc :: l2, isPointHit distFn lat lon x = true →
      pDist distFn lat lon loc ≤ pDist distFn lat lon x ∨
        ∃ nm d0, acc = some (nm, d0) ∧ d0 ≤ pDist distFn lat lon x) →
    (∀ x ∈ l1, isPointHit distFn lat lon x = true →
      pDist distFn lat lon loc < pDist distFn lat lon x ∨
        ∃ nm d0, acc = some (nm, d0) ∧ d0 ≤ pDist distFn lat lon x) →
    bestPointAux distFn lat lon acc (l1 ++ loc :: l2) =
      some (locName loc, pDist distFn lat lon loc) := by
  intro l1
  induction l1 with
  | nil =>
    intro loc l2 acc hhit hbeats hall _
    cases loc with
    | bounds b => simp [isPointHit] at hhit
    | point p =>
      simp only [List.nil_append, bestPointAux]
      rw [if_pos (by
        cases acc with
        | none => simpa [isPointHit] using hhit
        | some pr =>
          have := hbeats pr.1 pr.2 rfl
          simp only [isPointHit] at hhit
          simp [hhit, pDist] at this ⊢
          exact this)]
      rw [bestPointAux_no_better distFn lat lon l2 _ (fun x hx hhx => by
        refine ⟨p.name, (match_point_location distFn lat lon p).2, rfl, ?_⟩
        rcases hall x (List.mem_cons_of_mem _ hx) hhx with hle | ⟨nm, d0, hacc, hd⟩
        · simpa [pDist] using hle
        · have hb := hbeats nm d0 hacc
          simp only [pDist] at hb
          calc (match_point_location distFn lat lon p).2 ≤ d0 := le_of_lt (by
                simpa [match_point_location] using hb)
            _ ≤ pDist distFn lat lon x := hd)]
      rfl
  | cons y rest ih =>
    intro loc l2 acc hhit hbeats hall hpre
    have hallrest : ∀ x ∈ rest ++ loc :: l2, isPointHit distFn lat lon x = true →
        pDist distFn lat lon loc ≤ pDist distFn lat lon x ∨
          ∃ nm d0, acc = some (nm, d0) ∧ d0 ≤ pDist distFn lat lon x :=
      fun x hx => hall x (List.mem_cons_of_mem _ hx)
    have hprerest : ∀ x ∈ rest, isPointHit distFn lat lon x = true →
        pDist distFn lat lon loc < pDist distFn lat lon x ∨
          ∃ nm d0, acc = some (nm, d0) ∧ d0 ≤ pDist distFn lat lon x :=
      fun x hx => hpre x (List.mem_cons_of_mem _ hx)
    cases y with
    | bounds b =>
      simp only [List.cons_append, bestPointAux]
      exact ih loc l2 acc hhit hbeats hallrest hprerest
    | point py =>
      simp only [List.cons_append, bestPointAux]
      by_cases hpy : (match_point_location distFn lat lon py).1 = true
      · rcases hpre (.point py) (List.mem_cons_self _ _)
          (by simpa [isPointHit] using hpy) with hlt | ⟨nm, d0, hacc, hd⟩
        · simp only [pDist] at hlt
          cases acc with
          | none =>
            rw [if_pos (by simp [hpy])]
            refine ih loc l2 (some (py.name, (match_point_location distFn lat lon py).2))
              hhit ?_ ?_ ?_
            · intro nm d0 hh
              injection hh with hh2
              have : d0 = (match_point_location distFn lat lon py).2 := by
                have := congrArg Prod.snd hh2; simpa using this.symm
              rw [this]; exact hlt
            · intro x hx hhx
              rcases hallrest x hx hhx with hle | ⟨nm, d0, hacc2, _⟩
              · exact Or.inl hle
              · exact absurd hacc2 (by simp)
            · intro x hx hhx
              rcases hprerest x hx hhx with hle | ⟨nm, d0, hacc2, _⟩
              · exact Or.inl hle
              · exact absurd hacc2 (by simp)
          | some pr =>
            obtain ⟨nm0, d0⟩ := pr
            by_cases hbet : (match_point_location distFn lat lon py).2 < d0
            · rw [if_pos (by simp [hpy, hbet])]
              refine ih loc l2 (some (py.name, (match_point_location distFn lat lon py).2))
                hhit ?_ ?_ ?_
              · intro nm d1 hh
                injection hh with hh2
                have : d1 = (match_point_location distFn lat lon py).2 := by
                  have := congrArg Prod.snd hh2; simpa using this.symm
                rw [this]; exact hlt
              · intro x hx hhx
                rcases hallrest x hx hhx with hle | ⟨nm, d1, hacc2, hd1⟩
                · exact Or.inl hle
                · injection hacc2 with hh2
                  have hd1e : d1 = d0 := by
                    have := congrArg Prod.snd hh2; simpa using this.symm
                  refine Or.inr ⟨py.name, _, rfl, ?_⟩
                  rw [hd1e] at hd1
                  exact le_of_lt (lt_of_lt_of_le hbet hd1)
              · intro x hx hhx
                rcases hprerest x hx hhx with hle | ⟨nm, d1, hacc2, hd1⟩
                · exact Or.inl hle
                · injection hacc2 with hh2
                  have hd1e : d1 = d0 := by
                    have := congrArg Prod.snd hh2; simpa using this.symm
                  refine Or.inr ⟨py.name, _, rfl, ?_⟩
                  rw [hd1e] at hd1
                  exact le_of_lt (lt_of_lt_of_le hbet hd1)
            · rw [if_neg (by simp [hbet])]
              exact ih loc l2 _ hhit hbeats hallrest hprerest
        · subst hacc
          have hnlt : ¬((match_point_location distFn lat lon py).2 < d0) := by
            simp only [pDist] at hd
            exact not_lt.mpr hd
          rw [if_neg (by simp [hnlt])]
          exact ih loc l2 _ hhit hbeats hallrest hprerest
      · rw [if_neg (by simp [hpy])]
        exact ih loc l2 acc hhit hbeats hallrest hprerest

/-- C5: if the configuration decomposes as earlier definitions (none of
which is a Bounds containing the coordinate), a containing Bounds, and a
tail, then `match_location` returns that Bounds's name — the first Bounds
match in declared order wins, for every distance oracle and regardless of
any Point definitions (so Bounds take priority over Points at any
distance). -/
theorem C5_bounds_first_match
    (distFn : ℚ → ℚ → ℚ → ℚ → ℚ) (lat lon : ℚ) (cfg : SorterConfig)
    (l1 : List LocationDef) (loc : LocationDef) (l2 : List LocationDef)
    (hdec : cfg.locations = l1 ++ loc :: l2)
    (hhit : isBoundsHit lat lon loc = true)
    (hpre : ∀ x ∈ l1, isBoundsHit lat lon x = false) :
    match_location distFn lat lon cfg = some (locName loc) := by
  have hfb : firstBoundsHit lat lon cfg.locations = some (locName loc) := by
    rw [hdec, firstBoundsHit_skip_miss lat lon l1 (loc :: l2) hpre]
    cases loc with
    | bounds b =>
      simp only [firstBoundsHit]
      rw [if_pos (by simpa [isBoundsHit] using hhit)]
      rfl
    | point p => simp [isBoundsHit] at hhit
  unfold match_location
  rw [if_neg (by simp [hdec])]
  rw [hfb]

/-- C5 witness: a Point that matches at distance 0 is declared first, yet
the containing Bounds declared after it wins. -/
theorem C5_witness :
    match_location (fun _ _ _ _ => 0) 0 0
      ⟨[.point ⟨"P", 0, 0, 5⟩, .bounds ⟨"B", -1, 1, -1, 1⟩], "folder", "U", 1/2⟩ =
      some (locName (.bounds ⟨"B", -1, 1, -1, 1⟩)) :=
  C5_bounds_first_match (fun _ _ _ _ => 0) 0 0 _
    [.point ⟨"P", 0, 0, 5⟩] (.bounds ⟨"B", -1, 1, -1, 1⟩) []
    rfl (by decide) (by decide)

/-- C7: when no Bounds contains the coordinate and the configuration
decomposes as earlier definitions, a matching Point `loc`, and a tail such
that `loc`'s distance is minimal among all matching Points and strictly
smaller than every earlier matching Point's, `match_location` returns
`loc`'s name — the strictly smallest distance wins and equal-distance ties
resolve to the first-declared location. -/
theorem C7_nearest_point_wins
    (distFn : ℚ → ℚ → ℚ → ℚ → ℚ) (lat lon : ℚ) (cfg : SorterConfig)
    (l1 : List LocationDef) (loc : LocationDef) (l2 : List LocationDef)
    (hdec : cfg.locations = l1 ++ loc :: l2)
    (hnob : ∀ x ∈ cfg.locations, isBoundsHit lat lon x = false)
    (hhit : isPointHit distFn lat lon loc = true)
    (hmin : ∀ x ∈ cfg.locations, isPointHit distFn lat lon x = true →
      pDist distFn lat lon loc ≤ pDist distFn lat lon x)
    (hfirst : ∀ x ∈ l1, isPointHit distFn lat lon x = true →
      pDist distFn lat lon loc < pDist distFn lat lon x) :
    match_location distFn lat lon cfg = some (locName loc) := by
  have hfb : firstBoundsHit lat lon cfg.locations = none :=
    firstBoundsHit_of_none lat lon _ hnob
  have hbp := bestPointAux_first_min distFn lat lon l1 loc l2 none hhit
    (by intro nm d0 h; exact absurd h (by simp))
    (by intro x hx hhx; exact Or.inl (hmin x (by rw [hdec]; exact hx) hhx))
    (by intro x hx hhx; exact Or.inl (hfirst x hx hhx))
  unfold match_location
  rw [if_neg (by simp [hdec])]
  rw [hfb, hdec, hbp]
  rfl

/-- C7 witness: four matching Points at distances 3, 2, 2, 4 — the
first-declared of the two nearest (distance 2) wins. -/
theorem C7_witness :
    match_location (fun _ _ _ plo => plo) 0 0
      ⟨[.point ⟨"A", 0, 3, 5⟩, .point ⟨"B", 0, 2, 5⟩, .point ⟨"C", 0, 2, 5⟩,
        .point ⟨"D", 0, 4, 5⟩], "folder", "U", 1/2⟩ =
      some (locName (.point ⟨"B", 0, 2, 5⟩)) :=
  C7_nearest_point_wins (fun _ _ _ plo => plo) 0 0 _
    [.point ⟨"A", 0, 3, 5⟩] (.point ⟨"B", 0, 2, 5⟩)
    [.point ⟨"C", 0, 2, 5⟩, .point ⟨"D", 0, 4, 5⟩]
    rfl (by decide) (by decide) (by decide) (by decide)

/-! ### Normalizer invariant lemmas -/

theorem pyUpperChar_isAlpha (c : Char) (h : c.isAlpha = true) :
    (pyUpperChar c).isAlpha = true := by
  unfold pyUpperChar
  cases hfind : casePairs.find? (fun p => decide (p.1 = c)) with
  | none => simpa using h
  | some pr =>
    have hmem := List.mem_of_find?_eq_some hfind
    have hall : ∀ q ∈ casePairs, q.2.isAlpha = true := by decide
    simpa using hall pr hmem

theorem pyLowerChar_isAlpha (c : Char) (h : c.isAlpha = true) :
    (pyLowerChar c).isAlpha = true := by
  unfold pyLowerChar
  cases hfind : casePairs.find? (fun p => decide (p.2 = c)) with
  | none => simpa using h
  | some pr =>
    have hmem := List.mem_of_find?_eq_some hfind
    have hall : ∀ q ∈ casePairs, q.1.isAlpha = true := by decide
    simpa using hall pr hmem

theorem alnum_not_space (c : Char) (h : (c.isAlpha || c.isDigit) = true) :
    pyIsSpace c = false := by
  by_contra hne
  have hs : pyIsSpace c = true := by simpa using hne
  simp only [pyIsSpace, Bool.or_eq_true, decide_eq_true_eq] at hs
  rcases hs with ((((h1 | h1) | h1) | h1) | h1) | h1 <;> subst h1 <;>
    exact absurd h (by decide)

theorem string_join_data (l : List String) :
    (String.join l).data = (l.map String.data).flatten := by
  have aux : ∀ (l : List String) (a : String),
      (l.foldl (fun r s => r ++ s) a).data = a.data ++ (l.map String.data).flatten := by
    intro l
    induction l with
    | nil => intro a; simp
    | cons s rest ih =>
      intro a
      simp only [List.foldl_cons, ih, List.map_cons, List.flatten_cons]
      simp
  simpa [String.join] using aux l ""

theorem pyCapitalize_data (p : String) (c0 : Char) (rest : List Char)
    (hd : p.data = c0 :: rest) :
    (pyCapitalize p).data = pyUpperChar c0 :: rest.map pyLowerChar := by
  unfold pyCapitalize
  rw [hd]

theorem mapped_token_chars_alnum (p : String) (c : Char)
    (hpred : (pyStrIsAlpha p || (pyStrIsDigit p && decide (3 < p.length))) = true)
    (hc : c ∈ (if pyStrIsAlpha p then pyCapitalize p else p).data) :
    (c.isAlpha || c.isDigit) = true := by
  by_cases ha : pyStrIsAlpha p = true
  · rw [if_pos ha] at hc
    have hall : ∀ ch ∈ p.data, ch.isAlpha = true := by
      simp only [pyStrIsAlpha, Bool.and_eq_true, List.all_eq_true] at ha
      exact fun ch hch => ha.2 ch hch
    cases hd : p.data with
    | nil =>
      rw [pyCapitalize, hd] at hc
      simp at hc
    | cons c0 rest =>
      rw [pyCapitalize_data p c0 rest hd] at hc
      rcases List.mem_cons.mp hc with hceq | hcr
      · subst hceq
        rw [pyUpperChar_isAlpha c0 (hall c0 (hd ▸ List.mem_cons_self _ _))]
        rfl
      · obtain ⟨ch, hch, hche⟩ := List.mem_map.mp hcr
        subst hche
        rw [pyLowerChar_isAlpha ch (hall ch (hd ▸ List.mem_cons_of_mem _ hch))]
        rfl
  · rw [if_neg ha] at hc
    have hdig : pyStrIsDigit p = true := by
      have hpred2 : pyStrIsAlpha p = true ∨ (pyStrIsDigit p = true ∧ 3 < p.length) := by
        simpa [Bool.or_eq_true, Bool.and_eq_true] using hpred
      rcases hpred2 with h | h
      · exact absurd h ha
      · exact h.1
    simp only [pyStrIsDigit, Bool.and_eq_true, List.all_eq_true] at hdig
    rw [hdig.2 c hc]
    simp

/-- C9: `to_single_word_english` always returns a non-empty string with no
whitespace, and (under the ASCII-stripping transliteration fallback) the
result is either the literal "Unknown" or consists exclusively of ASCII
letters and digits. -/
theorem C9_normalizer_invariants (s : String) :
    to_single_word_english s ≠ "" ∧
    (∀ c ∈ (to_single_word_english s).data, pyIsSpace c = false) ∧
    (to_single_word_english s = "Unknown" ∨
      ∀ c ∈ (to_single_word_english s).data, (c.isAlpha || c.isDigit) = true) := by
  have halnum : ∀ r : String, (∀ c ∈ r.data, (c.isAlpha || c.isDigit) = true) →
      (∀ c ∈ r.data, pyIsSpace c = false) :=
    fun r h c hc => alnum_not_space c (h c hc)
  simp only [to_single_word_english]
  split_ifs with h1 h2 h3 h4 h5
  · exact ⟨by decide, by decide, Or.inl rfl⟩
  · exact ⟨by decide, by decide, Or.inl rfl⟩
  · exact ⟨by decide, by decide, Or.inl rfl⟩
  · exact ⟨by decide, by decide, Or.inl rfl⟩
  · exact ⟨by decide, by decide, Or.inl rfl⟩
  · refine ⟨h5, ?_, ?_⟩
    · apply halnum
      intro c hc
      rw [string_join_data, List.mem_flatten] at hc
      obtain ⟨piece, hpiece, hcp⟩ := hc
      simp only [List.map_map, List.mem_map, Function.comp] at hpiece
      obtain ⟨p, hpmem, hpe⟩ := hpiece
      rw [← hpe] at hcp
      exact mapped_token_chars_alnum p c (List.mem_filter.mp hpmem).2 hcp
    · refine Or.inr ?_
      intro c hc
      rw [string_join_data, List.mem_flatten] at hc
      obtain ⟨piece, hpiece, hcp⟩ := hc
      simp only [List.map_map, List.mem_map, Function.comp] at hpiece
      obtain ⟨p, hpmem, hpe⟩ := hpiece
      rw [← hpe] at hcp
      exact mapped_token_chars_alnum p c (List.mem_filter.mp hpmem).2 hcp

/-! ### Orchestrator lemmas -/

theorem configModeStep_noGps (distFn : ℚ → ℚ → ℚ → ℚ → ℚ) (config : SorterConfig)
    (single : Bool) (st : ConfigModeState) (p : Photo) :
    (configModeStep distFn config single st p).skipped_no_gps =
      st.skipped_no_gps + (if hasNoGps p then 1 else 0) := by
  unfold configModeStep hasNoGps
  rcases p with ⟨path, exif⟩
  rcases exif with e | g
  · simp
  · rcases g with _ | ⟨lat, lon⟩
    · simp
    · cases hm : match_location distFn lat lon config with
      | none =>
        simp only [hm]
        split_ifs <;> simp_all
      | some nm => simp only [hm]; simp_all

theorem configModeStep_moves (distFn : ℚ → ℚ → ℚ → ℚ → ℚ) (config : SorterConfig)
    (single : Bool) (st : ConfigModeState) (p : Photo) :
    ∃ t, (configModeStep distFn config single st p).moves = st.moves ++ t ∧
      (hasNoGps p = true → t = [(p.path, "Skipped")]) := by
  unfold configModeStep hasNoGps
  rcases p with ⟨path, exif⟩
  rcases exif with e | g
  · exact ⟨[], by simp⟩
  · rcases g with _ | ⟨lat, lon⟩
    · exact ⟨[(path, "Skipped")], by simp⟩
    · cases hm : match_location distFn lat lon config with
      | none =>
        simp only [hm]
        split_ifs
        · exact ⟨[], by simp⟩
        · exact ⟨[(path, sanitize_folder_name config.uncategorized_folder_name)], by simp⟩
      | some nm =>
        simp only [hm]
        exact ⟨[(path, if single then to_single_word_english nm
          else sanitize_folder_name nm)], by simp⟩

theorem configModeStep_sorted (distFn : ℚ → ℚ → ℚ → ℚ → ℚ) (config : SorterConfig)
    (single : Bool) (st : ConfigModeState) (p : Photo)
    (h : st.sorted = st.moves.length) :
    (configModeStep distFn config single st p).sorted =
      (configModeStep distFn config single st p).moves.length := by
  unfold configModeStep
  rcases p with ⟨path, exif⟩
  rcases exif with e | g
  · simpa using h
  · rcases g with _ | ⟨lat, lon⟩
    · simp [h]
    · cases hm : match_location distFn lat lon config with
      | none =>
        simp only [hm]
        split_ifs <;> simp [h]
      | some nm => simp only [hm]; simp [h]

theorem configFold_invariants (distFn : ℚ → ℚ → ℚ → ℚ → ℚ) (config : SorterConfig)
    (single : Bool) :
    ∀ (photos : List Photo) (st : ConfigModeState),
    st.sorted = st.moves.length →
    (photos.foldl (configModeStep distFn config single) st).skipped_no_gps =
      st.skipped_no_gps + (photos.filter hasNoGps).length ∧
    (∀ m ∈ st.moves, m ∈ (photos.foldl (configModeStep distFn config single) st).moves) ∧
    (∀ p ∈ photos, hasNoGps p = true →
      (p.path, "Skipped") ∈ (photos.foldl (configModeStep distFn config single) st).moves) ∧
    (photos.foldl (configModeStep distFn config single) st).sorted =
      (photos.foldl (configModeStep distFn config single) st).moves.length := by
  intro photos
  induction photos with
  | nil => intro st h; exact ⟨by simp, fun m hm => hm, by simp, h⟩
  | cons p rest ih =>
    intro st h
    have hsort := configModeStep_sorted distFn config single st p h
    obtain ⟨t, hmv, hskip⟩ := configModeStep_moves distFn config single st p
    obtain ⟨ih1, ih2, ih3, ih4⟩ := ih (configModeStep distFn config single st p) hsort
    refine ⟨?_, ?_, ?_, ih4⟩
    · rw [List.foldl_cons] at *
      rw [ih1, configModeStep_noGps]
      by_cases hng : hasNoGps p = true
      · simp [hng, List.filter_cons]
        omega
      · have hng2 : hasNoGps p = false := by simpa using hng
        simp [hng2, List.filter_cons]
    · intro m hm
      exact ih2 m (by rw [hmv]; exact List.mem_append_left _ hm)
    · intro q hq hqg
      rcases List.mem_cons.mp hq with hqe | hqr
      · subst hqe
        apply ih2
        rw [hmv, hskip hqg]
        exact List.mem_append_right _ (List.mem_singleton.mpr rfl)
      · exact ih3 q hqr hqg

theorem autoCollectStep_noGps (r : ℚ)
    (acc : List ((ℚ × ℚ) × List (String × ℚ × ℚ)) × List String × List (String × String))
    (p : Photo) :
    (autoCollectStep r acc p).2.1 =
      acc.2.1 ++ (if hasNoGps p then [p.path] else []) := by
  unfold autoCollectStep hasNoGps
  rcases p with ⟨path, exif⟩
  rcases exif with e | g
  · simp
  · rcases g with _ | ⟨lat, lon⟩ <;> simp

theorem autoCollectFold_noGps (r : ℚ) :
    ∀ (photos : List Photo)
      (acc : List ((ℚ × ℚ) × List (String × ℚ × ℚ)) × List String × List (String × String)),
    (photos.foldl (autoCollectStep r) acc).2.1 =
      acc.2.1 ++ (photos.filter hasNoGps).map Photo.path := by
  intro photos
  induction photos with
  | nil => intro acc; simp
  | cons p rest ih =>
    intro acc
    rw [List.foldl_cons, ih, autoCollectStep_noGps]
    by_cases hng : hasNoGps p = true
    · simp [hng, List.filter_cons]
    · have hng2 : hasNoGps p = false := by simpa using hng
      simp [hng2, List.filter_cons]

theorem autoMove_inner (folder : String) :
    ∀ (paths : List (String × ℚ × ℚ)) (acc : ℕ × List (String × String)),
    paths.foldl (fun acc2 pe => (acc2.1 + 1, acc2.2 ++ [(pe.1, folder)])) acc =
      (acc.1 + paths.length, acc.2 ++ paths.map (fun pe => (pe.1, folder))) := by
  intro paths
  induction paths with
  | nil => intro acc; simp
  | cons pe rest ih =>
    intro acc
    rw [List.foldl_cons, ih]
    simp only [List.length_cons, List.map_cons, Prod.mk.injEq]
    exact ⟨by omega, by simp⟩

theorem autoMoveClusters_char :
    ∀ (clusters : List ((ℚ × ℚ) × List (String × ℚ × ℚ)))
      (folderMap : List ((ℚ × ℚ) × String)) (s0 : ℕ) (m0 : List (String × String)),
    ∃ extra : List (String × String),
      autoMoveClusters folderMap clusters s0 m0 = (s0 + extra.length, m0 ++ extra) := by
  intro clusters
  induction clusters with
  | nil => intro folderMap s0 m0; exact ⟨[], by simp [autoMoveClusters]⟩
  | cons cl rest ih =>
    intro folderMap s0 m0
    have hInner := autoMove_inner ((clusterGet folderMap cl.1).getD "Unknown") cl.2 (s0, m0)
    obtain ⟨e2, he2⟩ := ih folderMap (s0 + cl.2.length)
      (m0 ++ cl.2.map (fun pe => (pe.1, (clusterGet folderMap cl.1).getD "Unknown")))
    refine ⟨cl.2.map (fun pe => (pe.1, (clusterGet folderMap cl.1).getD "Unknown")) ++ e2, ?_⟩
    unfold autoMoveClusters at *
    rw [List.foldl_cons, hInner, he2]
    simp only [Prod.mk.injEq, List.length_append, List.length_map]
    exact ⟨by omega, by simp⟩

/-- C8: for every input and both modes (auto when no locations are
configured, config mode otherwise), if the run returns a summary then every
photo whose coordinate extraction yielded no GPS data was routed to the
fixed "Skipped" folder, `skipped_no_gps` equals the number of such photos,
and each of those routings counts toward the sorted total (`sorted` equals
the number of performed copy/move operations, which include the Skipped
ones). -/
theorem C8_no_gps_to_skipped
    (photos : List Photo) (config : SorterConfig) (distFn : ℚ → ℚ → ℚ → ℚ → ℚ)
    (geocode : Bool) (cacheFile : Option Cache) (cluster_radius_km : ℚ)
    (single_word_english : Bool) (net : ℚ → ℚ → NomResponse) (s : RunSummary)
    (hrun : run photos config distFn geocode cacheFile cluster_radius_km
      single_word_english net = .ok s) :
    s.skipped_no_gps = (photos.filter hasNoGps).length ∧
    (∀ p ∈ photos, hasNoGps p = true → (p.path, "Skipped") ∈ s.moves) ∧
    s.sorted = s.moves.length := by
  unfold run at hrun
  by_cases htot : photos.length = 0
  · rw [if_pos htot] at hrun
    have hphotos : photos = [] := List.length_eq_zero.mp htot
    subst hphotos
    simp only [Except.ok.injEq] at hrun
    subst hrun
    exact ⟨by simp, by simp, rfl⟩
  · rw [if_neg htot] at hrun
    by_cases hauto : config.locations.isEmpty = true
    · rw [if_pos hauto] at hrun
      rcases hcol : autoCollect cluster_radius_km photos with ⟨clusters, noGps, errs⟩
      simp only [hcol] at hrun
      have hnoGps : noGps = (photos.filter hasNoGps).map Photo.path := by
        have haux := autoCollectFold_noGps cluster_radius_km photos ([], [], [])
        unfold autoCollect at hcol
        rw [hcol] at haux
        simpa using haux
      cases hres : resolveClusters geocode single_word_english
          (cluster_precision_from_radius_km cluster_radius_km) net cacheFile [] clusters with
      | error e =>
        rw [hres] at hrun
        cases hrun
      | ok pair =>
        obtain ⟨fs2, folderMap⟩ := pair
        rw [hres] at hrun
        dsimp only at hrun
        obtain ⟨extra, hmv⟩ := autoMoveClusters_char clusters folderMap noGps.length
          (noGps.map (fun p => (p, "Skipped")))
        rw [hmv] at hrun
        simp only [Except.ok.injEq] at hrun
        subst hrun
        refine ⟨?_, ?_, ?_⟩
        · simp [hnoGps]
        · intro p hp hpg
          apply List.mem_append_left
          have hpm : p.path ∈ noGps := by
            rw [hnoGps]
            exact List.mem_map_of_mem _ (List.mem_filter.mpr ⟨hp, hpg⟩)
          exact List.mem_map_of_mem _ hpm
        · simp
    · rw [if_neg hauto] at hrun
      obtain ⟨h1, _, h3, h4⟩ := configFold_invariants distFn config single_word_english
        photos ⟨0, 0, 0, [], []⟩ rfl
      simp only [Except.ok.injEq] at hrun
      subst hrun
      exact ⟨by simpa using h1, fun p hp hpg => h3 p hp hpg, h4⟩


/-- C8 witness: an auto-mode run over one no-GPS photo and one located
photo. -/
theorem C8_no_gps_to_skipped_witness :
    (⟨2, 2, 1, 0, 0, [],
      [("a.jpg", "Skipped"), ("b.jpg", "Lat25_0Lon121_6")]⟩ : RunSummary).skipped_no_gps =
      ([⟨"a.jpg", Except.ok none⟩,
        ⟨"b.jpg", Except.ok (some ((2503 : ℚ)/100, (12156 : ℚ)/100))⟩].filter
          hasNoGps).length ∧
    ("a.jpg", "Skipped") ∈ (⟨2, 2, 1, 0, 0, [],
      [("a.jpg", "Skipped"), ("b.jpg", "Lat25_0Lon121_6")]⟩ : RunSummary).moves ∧
    (⟨2, 2, 1, 0, 0, [],
      [("a.jpg", "Skipped"), ("b.jpg", "Lat25_0Lon121_6")]⟩ : RunSummary).sorted =
      (⟨2, 2, 1, 0, 0, [],
        [("a.jpg", "Skipped"), ("b.jpg", "Lat25_0Lon121_6")]⟩ : RunSummary).moves.length := by
  obtain ⟨h1, h2, h3⟩ := C8_no_gps_to_skipped
    [⟨"a.jpg", Except.ok none⟩,
      ⟨"b.jpg", Except.ok (some ((2503 : ℚ)/100, (12156 : ℚ)/100))⟩]
    ⟨[], "folder", "Uncategorized", 1/2⟩ (fun _ _ _ _ => 0) false none 10 true
    (fun _ _ => .failure)
    ⟨2, 2, 1, 0, 0, [], [("a.jpg", "Skipped"), ("b.jpg", "Lat25_0Lon121_6")]⟩ rfl
  exact ⟨h1, h2 ⟨"a.jpg", Except.ok none⟩ (List.mem_cons_self _ _) rfl, h3⟩
